import Mathlib

/-!
Verification of the Comprangel image-transcoding pipeline.

The repository has two implementations of the per-image pipeline:
the React hook `useImageProcessor.js` (the live path, `processImage` /
`processBatch`) and a web-worker variant (`processImage` in the worker
file).  Both are embedded below.  Numeric computations are modelled over
`ℚ`; `Math.round` is `⌊x + 1/2⌋`; the opaque browser encoder
(`canvas.toBlob`) is a parameter returning an optional byte size.
JS `null`/`0` dimension fields are both falsy and are collapsed to `0`.
-/

namespace Comprangel

/-- JS `Math.round x = ⌊x + 1/2⌋` (rounds half toward positive infinity). -/
def jsRound (x : ℚ) : ℤ := (x + 1/2).floor

/-- Output formats handled by the `switch` in `attemptConversion`. -/
inductive Format where
  | webp
  | avif
  | jpeg
  | png
deriving DecidableEq, Repr

/-- `settings.resize`; `mode === 'percentage'` is a two-way branch in the
source, modelled by `modePercentage`.  `width = 0` encodes JS `null`/`0`
(both falsy, used only through truthiness and `||`). -/
structure ResizeSettings where
  enabled : Bool
  modePercentage : Bool
  percentage : ℚ
  width : ℕ
  height : ℕ
  lockAspect : Bool
deriving DecidableEq, Repr

/-- `settings.flip`. -/
structure FlipSettings where
  horizontal : Bool
  vertical : Bool
deriving DecidableEq, Repr

/-- `settings.filters`. -/
structure FilterSettings where
  grayscale : Bool
  brightness : ℚ
  contrast : ℚ
deriving DecidableEq, Repr

/-- `settings.crop`. -/
structure CropSettings where
  enabled : Bool
  x : ℕ
  y : ℕ
  width : ℕ
  height : ℕ
deriving DecidableEq, Repr

/-- The settings object handed to `processImage`. -/
structure Settings where
  outputFormat : Format
  quality : ℚ
  lossless : Bool
  resize : ResizeSettings
  rotate : ℕ
  flip : FlipSettings
  filters : FilterSettings
  crop : CropSettings
deriving DecidableEq, Repr

/-- A decoded source bitmap: `img.width`, `img.height`. -/
structure Img where
  width : ℕ
  height : ℕ
deriving DecidableEq, Repr

/-- The resize block shared verbatim by the hook (`useImageProcessor.js`
lines 34-54) and the worker (lines 29-49): starts from current dimensions
`(w, h)`, derives the locked axis from the original image's aspect ratio
`srcW / srcH`. -/
def resizeStep (srcW srcH : ℕ) (resize : ResizeSettings) (w h : ℤ) : ℤ × ℤ :=
  if resize.enabled then
    if resize.modePercentage then
      (jsRound ((w : ℚ) * (resize.percentage / 100)),
       jsRound ((h : ℚ) * (resize.percentage / 100)))
    else
      let aspectRatio : ℚ := (srcW : ℚ) / (srcH : ℚ)
      if resize.lockAspect then
        if resize.width ≠ 0 then
          ((resize.width : ℤ), jsRound ((resize.width : ℚ) / aspectRatio))
        else if resize.height ≠ 0 then
          (jsRound ((resize.height : ℚ) * aspectRatio), (resize.height : ℤ))
        else (w, h)
      else
        (if resize.width ≠ 0 then (resize.width : ℤ) else w,
         if resize.height ≠ 0 then (resize.height : ℤ) else h)
  else (w, h)

/-- Hook `processImage`: dimensions after the resize block (crop never
appears in the hook; `width`/`height` start at `img.width`/`img.height`). -/
def hookResizeDims (img : Img) (resize : ResizeSettings) : ℤ × ℤ :=
  resizeStep img.width img.height resize (img.width : ℤ) (img.height : ℤ)

/-- Dimension swap for 90/270 rotation (hook lines 56-58, worker lines
51-54). -/
def rotateSwap (rotate : ℕ) (w h : ℤ) : ℤ × ℤ :=
  if rotate = 90 ∨ rotate = 270 then (h, w) else (w, h)

/-- Hook `processImage`: final canvas dimensions (`finalWidth`,
`finalHeight`). -/
def hookFinalDims (img : Img) (s : Settings) : ℤ × ℤ :=
  rotateSwap s.rotate (hookResizeDims img s.resize).1 (hookResizeDims img s.resize).2

/-- Hook `processImage` lines 173-185: aggressive dimension optimization
for AVIF. -/
def avifOptimize (format : Format) (fw fh : ℤ) : ℤ × ℤ :=
  if format = Format.avif then
    let maxDimension := max fw fh
    if maxDimension > 1024 then
      let scale : ℚ := max (2/5) (1024 / (maxDimension : ℚ))
      (jsRound ((fw : ℚ) * scale), jsRound ((fh : ℚ) * scale))
    else (fw, fh)
  else (fw, fh)

/-- Hook `processImage`: the dimensions every chain attempt (except the
emergency one) encodes at. -/
def hookOptimizedDims (img : Img) (s : Settings) : ℤ × ℤ :=
  avifOptimize s.outputFormat (hookFinalDims img s).1 (hookFinalDims img s).2

/-- The per-format final quality computed by the `switch` in
`attemptConversion` (lines 126-147); `none` models the `undefined`
quality for png. -/
def finalQualityFor (lossless : Bool) (format : Format) (q : ℚ) : Option ℚ :=
  match format with
  | Format.webp => some (if lossless then 1 else min (17/20) (max (1/2) q))
  | Format.avif => some (min (2/5) (max (3/20) q))
  | Format.jpeg => some (min (23/25) (max (3/5) q))
  | Format.png => none

/-- The result object built by `attemptConversion` when `toBlob` yields a
blob. -/
structure ConvResult where
  convertedSize : ℕ
  width : ℤ
  height : ℤ
  format : Format
  qualityUsed : Option ℚ
deriving DecidableEq, Repr

/-- The opaque browser encoder `canvas.toBlob`: format, final quality and
canvas dimensions determine an optional blob, identified with its byte
size. -/
def Encoder : Type := Format → Option ℚ → ℤ → ℤ → Option ℕ

/-- `attemptConversion` (hook lines 123-171): clamp the quality for the
target format, encode, and package the result; `none` models
`resolveConvert(null)`. -/
def attemptConversion (enc : Encoder) (lossless : Bool) (format : Format)
    (qualityValue : ℚ) (canvasWidth canvasHeight : ℤ) : Option ConvResult :=
  let fq := finalQualityFor lossless format qualityValue
  match enc format fq canvasWidth canvasHeight with
  | some size => some ⟨size, canvasWidth, canvasHeight, format, fq⟩
  | none => none

/-- One planned encode attempt of the fallback chain: target format,
requested (pre-clamp) quality fraction, canvas dimensions. -/
structure Step where
  format : Format
  quality : ℚ
  width : ℤ
  height : ℤ
deriving DecidableEq, Repr

/-- The fallback chain of hook `processImage` lines 187-254, in execution
order: primary attempt, half-quality fallback (skipped for png), webp
fallback (skipped when already webp), webp@0.3, jpeg@0.4, and the
emergency webp@0.4 at half dimensions. -/
def chainSteps (s : Settings) (ow oh : ℤ) : List Step :=
  [⟨s.outputFormat, s.quality / 100, ow, oh⟩]
    ++ (if s.outputFormat ≠ Format.png then
          [⟨s.outputFormat, max (1/10) (s.quality / 100 * (1/2)), ow, oh⟩]
        else [])
    ++ (if s.outputFormat ≠ Format.webp then
          [⟨Format.webp, min (3/5) (s.quality / 100), ow, oh⟩]
        else [])
    ++ [⟨Format.webp, 3/10, ow, oh⟩,
        ⟨Format.jpeg, 2/5, ow, oh⟩,
        ⟨Format.webp, 2/5, jsRound ((ow : ℚ) * (1/2)), jsRound ((oh : ℚ) * (1/2))⟩]

/-- Run one planned step through `attemptConversion`. -/
def stepResult (enc : Encoder) (lossless : Bool) (st : Step) : Option ConvResult :=
  attemptConversion enc lossless st.format st.quality st.width st.height

/-- The `reduce` of line 259: keep the strictly smaller result, ties keep
the earlier one. -/
def smallestResult (r : ConvResult) (rs : List ConvResult) : ConvResult :=
  rs.foldl (fun m c => if c.convertedSize < m.convertedSize then c else m) r

/-- Does an optional attempt result beat the original size
(`result && result.convertedSize < originalSize`)? -/
def beats (orig : ℕ) : Option ConvResult → Bool
  | some r => r.convertedSize < orig
  | none => false

/-- Lines 256-265 of the hook: filter the attempts that produced a blob
(`validResults`), return the smallest, or reject with the encode-failure
error. -/
def settleAttempts (attempts : List (Option ConvResult)) : Except String ConvResult :=
  match (attempts.filterMap id : List ConvResult) with
  | [] => Except.error "Failed to create compressed image"
  | r :: rs => Except.ok (smallestResult r rs)

/-- The chain driver of hook `processImage` lines 187-265: execute the
steps in order, resolving at the first attempt that beats `orig`;
otherwise collect all attempts (in reverse, like repeated `push`) and
settle. -/
def runChain (enc : Encoder) (lossless : Bool) (orig : ℕ) :
    List Step → List (Option ConvResult) → Except String ConvResult
  | [], attempts => settleAttempts attempts.reverse
  | st :: rest, attempts =>
    match stepResult enc lossless st with
    | some res =>
      if res.convertedSize < orig then Except.ok res
      else runChain enc lossless orig rest (some res :: attempts)
    | none => runChain enc lossless orig rest (none :: attempts)

/-- The size-bounded encoder search of hook `processImage`, given the
already-optimized canvas dimensions. -/
def processImageSearch (enc : Encoder) (s : Settings) (orig : ℕ)
    (ow oh : ℤ) : Except String ConvResult :=
  runChain enc s.lossless orig (chainSteps s ow oh) []

/-- The hook's full `processImage` from decoded bitmap to search result
(`originalSize = file.originalSize || file.size`, line 188). -/
def hookProcessImage (enc : Encoder) (img : Img) (s : Settings)
    (orig : ℕ) : Except String ConvResult :=
  processImageSearch enc s orig (hookOptimizedDims img s).1 (hookOptimizedDims img s).2

/-- Worker `processImage` lines 20-27: starting dimensions — the crop
rectangle's when crop is enabled, the bitmap's otherwise. -/
def workerBaseDims (img : Img) (crop : CropSettings) : ℕ × ℕ :=
  if crop.enabled then (crop.width, crop.height) else (img.width, img.height)

/-- Worker `processImage`: dimensions entering the rotation swap (crop
applied first, then the resize block; the locked-aspect ratio still comes
from the original bitmap, line 36). -/
def workerPreRotateDims (img : Img) (s : Settings) : ℤ × ℤ :=
  resizeStep img.width img.height s.resize
    ((workerBaseDims img s.crop).1 : ℤ) ((workerBaseDims img s.crop).2 : ℤ)

/-- Worker `processImage`: final canvas dimensions (crop → resize →
rotation swap, lines 20-56). -/
def workerDims (img : Img) (s : Settings) : ℤ × ℤ :=
  rotateSwap s.rotate (workerPreRotateDims img s).1 (workerPreRotateDims img s).2

/-- Source rectangle of the worker's `drawImage` (lines 80-91): the crop
rectangle when crop is enabled, otherwise the whole bitmap. -/
def workerSourceRect (img : Img) (crop : CropSettings) : ℕ × ℕ × ℕ × ℕ :=
  if crop.enabled then (crop.x, crop.y, crop.width, crop.height)
  else (0, 0, img.width, img.height)

/-- Source rectangle of the hook's `drawImage` (line 79): always the
whole bitmap — the hook destructures no crop field from the settings. -/
def hookSourceRect (img : Img) : ℕ × ℕ × ℕ × ℕ :=
  (0, 0, img.width, img.height)

/-- One pixel's RGB channels (alpha untouched by every filter path). -/
structure Pixel where
  r : ℚ
  g : ℚ
  b : ℚ
deriving DecidableEq, Repr

/-- The per-channel clamp `Math.max(0, Math.min(255, v))` written back to
the pixel array. -/
def clamp255 (v : ℚ) : ℚ := max 0 (min 255 v)

/-- Grayscale step: `gray = 0.299r + 0.587g + 0.114b`, all channels set
to `gray`. -/
def grayStep (p : Pixel) : Pixel :=
  let gray := 299/1000 * p.r + 587/1000 * p.g + 114/1000 * p.b
  ⟨gray, gray, gray⟩

/-- Brightness step: add `(brightness / 100) * 255` to each channel. -/
def brightnessStep (brightness : ℚ) (p : Pixel) : Pixel :=
  ⟨p.r + brightness / 100 * 255, p.g + brightness / 100 * 255,
   p.b + brightness / 100 * 255⟩

/-- The hook's contrast factor (`useImageProcessor.js` line 105): the raw
stored contrast value is plugged into the factor formula unchanged. -/
def hookContrastFactor (contrast : ℚ) : ℚ :=
  259 * (contrast + 255) / (255 * (259 - contrast))

/-- The worker's contrast factor (worker lines 121-122): the stored value
is first normalized to `(contrast + 100) / 100` and then scaled by 255
inside the factor formula.  The editor preview computes the same. -/
def workerContrastFactor (storedContrast : ℚ) : ℚ :=
  let contrast := (storedContrast + 100) / 100
  259 * (contrast * 255 + 255) / (255 * (259 - contrast * 255))

/-- Contrast application to one pixel: `factor * (v - 128) + 128` on each
channel. -/
def contrastApply (factor : ℚ) (p : Pixel) : Pixel :=
  ⟨factor * (p.r - 128) + 128, factor * (p.g - 128) + 128,
   factor * (p.b - 128) + 128⟩

/-- The hook's per-pixel filter pass (lines 83-117): entered only when
some filter is truthy; grayscale, brightness and contrast applied in that
order, each guarded by its own truthiness check; channels clamped on
write-back. -/
def hookApplyFilters (f : FilterSettings) (p : Pixel) : Pixel :=
  if f.grayscale = true ∨ f.brightness ≠ 0 ∨ f.contrast ≠ 0 then
    let p1 := if f.grayscale then grayStep p else p
    let p2 := if f.brightness ≠ 0 then brightnessStep f.brightness p1 else p1
    let p3 := if f.contrast ≠ 0 then contrastApply (hookContrastFactor f.contrast) p2 else p2
    ⟨clamp255 p3.r, clamp255 p3.g, clamp255 p3.b⟩
  else p

/-- The worker's per-pixel filter pass (lines 96-134): runs whenever a
filters object is present; each step checks its own value is defined and
nonzero; channels always clamped on write-back. -/
def workerApplyFilters (f : FilterSettings) (p : Pixel) : Pixel :=
  let p1 := if f.grayscale then grayStep p else p
  let p2 := if f.brightness ≠ 0 then brightnessStep f.brightness p1 else p1
  let p3 := if f.contrast ≠ 0 then contrastApply (workerContrastFactor f.contrast) p2 else p2
  ⟨clamp255 p3.r, clamp255 p3.g, clamp255 p3.b⟩

/-- Modelled from the spec, for comparison with the code: "normalize
stored contrast in [-100,100] to `c = (contrast+100)/100`, then
`factor = 259*(c*255+255)/(255*(259-c*255))`, then
`out = factor*(in-128)+128`", with the result clamped to [0,255]. -/
def specContrastChannel (storedContrast v : ℚ) : ℚ :=
  let c := (storedContrast + 100) / 100
  let factor := 259 * (c * 255 + 255) / (255 * (259 - c * 255))
  clamp255 (factor * (v - 128) + 128)

/-- Per-file outcome recorded by `processBatch`: `updateFile` success
data, or the error message caught at the file boundary. -/
structure FileOutcome where
  id : ℕ
  result : Except String ConvResult

/-- The `for` loop of `processBatch` (lines 288-321): each file is
processed with the settings snapshot; both the success and the error
branch record an outcome, and `processed` is incremented and
`processed / files.length` reported after every file. -/
def batchLoop (proc : ℕ → Settings → Except String ConvResult)
    (currentSettings : Settings) (total : ℕ) :
    List ℕ → ℕ → List FileOutcome × List ℚ
  | [], _ => ([], [])
  | f :: rest, processed =>
    let r := proc f currentSettings
    let next := batchLoop proc currentSettings total rest (processed + 1)
    (⟨f, r⟩ :: next.1, ((processed + 1 : ℕ) : ℚ) / (total : ℚ) :: next.2)

/-- `processBatch` (lines 278-325): a no-op on an empty file list;
otherwise `settingsRef.current` is read once, at batch start, and that
snapshot drives every file.  `refVal t` is the value the mutable settings
ref holds when loop step `t` begins; the source reads it only at `t = 0`
(line 286). -/
def processBatch (proc : ℕ → Settings → Except String ConvResult)
    (refVal : ℕ → Settings) (files : List ℕ) : List FileOutcome × List ℚ :=
  if files.length = 0 then ([], [])
  else
    let currentSettings := refVal 0
    batchLoop proc currentSettings files.length files 0

/-- `handleWidthChange` (ImageEditor.jsx lines 122-131): `value` is the
already-parsed integer (`parseInt(value) || 0`); with the aspect locked
the height is recomputed from `originalAspect = file.width / file.height`,
otherwise the previously stored height is kept. -/
def handleWidthChange (fileW fileH : ℕ) (lockAspect : Bool)
    (prevHeight : ℤ) (value : ℤ) : ℤ × ℤ :=
  let originalAspect : ℚ := (fileW : ℚ) / (fileH : ℚ)
  let height := if lockAspect then jsRound ((value : ℚ) / originalAspect) else prevHeight
  (value, height)

/-! Concrete inputs used by the witnesses and counterexamples. -/

/-- An encoder that always produces a 100-byte blob. -/
def encConst : Encoder := fun _ _ _ _ => some 100

/-- An encoder whose outputs never beat a 100-byte original. -/
def encBig : Encoder := fun format _ _ _ =>
  match format with
  | Format.webp => some 300
  | Format.avif => some 400
  | Format.jpeg => some 500
  | Format.png => some 600

/-- Plain default-style settings requesting jpeg at quality 80. -/
def exJpegSettings : Settings :=
  ⟨Format.jpeg, 80, false, ⟨false, true, 100, 0, 0, true⟩, 0, ⟨false, false⟩,
   ⟨false, 0, 0⟩, ⟨false, 0, 0, 0, 0⟩⟩

/-- Settings requesting avif at quality 80. -/
def exAvifSettings : Settings :=
  ⟨Format.avif, 80, false, ⟨false, true, 100, 0, 0, true⟩, 0, ⟨false, false⟩,
   ⟨false, 0, 0⟩, ⟨false, 0, 0, 0, 0⟩⟩

/-- A 100×200 source bitmap. -/
def exImg : Img := ⟨100, 200⟩

/-- A 640×480 source bitmap. -/
def exImgVGA : Img := ⟨640, 480⟩

/-- Settings with crop enabled on a 10×20 rectangle and a 50% resize. -/
def exCropSettings : Settings :=
  ⟨Format.webp, 80, false, ⟨true, true, 50, 0, 0, true⟩, 0, ⟨false, false⟩,
   ⟨false, 0, 0⟩, ⟨true, 10, 20, 10, 20⟩⟩

/-- Settings rotating by 90 degrees, nothing else active. -/
def exRot90Settings : Settings :=
  ⟨Format.webp, 80, false, ⟨false, true, 100, 0, 0, true⟩, 90, ⟨false, false⟩,
   ⟨false, 0, 0⟩, ⟨false, 0, 0, 0, 0⟩⟩

/-- A settings ref that never changes: webp at quality 80 throughout. -/
def refSteady : ℕ → Settings := fun _ =>
  ⟨Format.webp, 80, false, ⟨false, true, 100, 0, 0, true⟩, 0, ⟨false, false⟩,
   ⟨false, 0, 0⟩, ⟨false, 0, 0, 0, 0⟩⟩

/-- A settings ref mutated right after batch start: webp at quality 80 at
time 0, avif at quality 10 from time 1 on. -/
def refMutated : ℕ → Settings := fun t =>
  if t = 0 then
    ⟨Format.webp, 80, false, ⟨false, true, 100, 0, 0, true⟩, 0, ⟨false, false⟩,
     ⟨false, 0, 0⟩, ⟨false, 0, 0, 0, 0⟩⟩
  else
    ⟨Format.avif, 10, false, ⟨false, true, 100, 0, 0, true⟩, 0, ⟨false, false⟩,
     ⟨false, 0, 0⟩, ⟨false, 0, 0, 0, 0⟩⟩

/-- A processor succeeding on every file except file 1, which fails the
way a decode failure does. -/
def procPartial : ℕ → Settings → Except String ConvResult := fun f _ =>
  if f = 1 then Except.error "Failed to load image"
  else Except.ok ⟨100, 640, 480, Format.webp, some (1/2)⟩

end Comprangel

namespace Comprangel

/-! Helper lemmas. -/

lemma jsRound_eq (x : ℚ) : jsRound x = ⌊x + 1/2⌋ := rfl

lemma smallestResult_cons (r c : ConvResult) (cs : List ConvResult) :
    smallestResult r (c :: cs) =
      smallestResult (if c.convertedSize < r.convertedSize then c else r) cs := rfl

lemma smallestResult_mem (r : ConvResult) (rs : List ConvResult) :
    smallestResult r rs ∈ r :: rs := by
  induction rs generalizing r with
  | nil => simp [smallestResult]
  | cons c cs ih =>
    have h := ih (if c.convertedSize < r.convertedSize then c else r)
    rw [smallestResult_cons]
    rcases List.mem_cons.mp h with h1 | h1
    · rw [h1]
      by_cases hc : c.convertedSize < r.convertedSize
      · rw [if_pos hc]
        exact List.mem_cons_of_mem _ (List.mem_cons_self _ _)
      · rw [if_neg hc]
        exact List.mem_cons_self _ _
    · exact List.mem_cons_of_mem _ (List.mem_cons_of_mem _ h1)

lemma smallestResult_le (r : ConvResult) (rs : List ConvResult) :
    ∀ x ∈ r :: rs, (smallestResult r rs).convertedSize ≤ x.convertedSize := by
  induction rs generalizing r with
  | nil =>
    intro x hx
    rcases List.mem_singleton.mp hx with rfl
    simp [smallestResult]
  | cons c cs ih =>
    intro x hx
    rw [smallestResult_cons]
    have hself : (smallestResult (if c.convertedSize < r.convertedSize then c else r) cs).convertedSize ≤
        (if c.convertedSize < r.convertedSize then c else r).convertedSize :=
      ih _ _ (List.mem_cons_self _ _)
    have hle_r : (if c.convertedSize < r.convertedSize then c else r).convertedSize ≤ r.convertedSize := by
      by_cases hc : c.convertedSize < r.convertedSize
      · rw [if_pos hc]; exact Nat.le_of_lt hc
      · rw [if_neg hc]
    have hle_c : (if c.convertedSize < r.convertedSize then c else r).convertedSize ≤ c.convertedSize := by
      by_cases hc : c.convertedSize < r.convertedSize
      · rw [if_pos hc]
      · rw [if_neg hc]; exact Nat.le_of_not_lt hc
    rcases List.mem_cons.mp hx with h1 | h1
    · rw [h1]; exact le_trans hself hle_r
    · rcases List.mem_cons.mp h1 with h2 | h2
      · rw [h2]; exact le_trans hself hle_c
      · exact ih _ _ (List.mem_cons_of_mem _ h2)

lemma settleAttempts_error_iff (attempts : List (Option ConvResult)) :
    settleAttempts attempts = Except.error "Failed to create compressed image" ↔
      attempts.filterMap id = [] := by
  unfold settleAttempts
  cases h : (attempts.filterMap id : List ConvResult) with
  | nil => simp
  | cons r rs => simp

lemma settleAttempts_ok (attempts : List (Option ConvResult)) (r : ConvResult)
    (h : settleAttempts attempts = Except.ok r) :
    r ∈ attempts.filterMap id ∧
      ∀ x ∈ attempts.filterMap id, r.convertedSize ≤ x.convertedSize := by
  unfold settleAttempts at h
  cases hl : (attempts.filterMap id : List ConvResult) with
  | nil => rw [hl] at h; exact absurd h (by simp)
  | cons c cs =>
    rw [hl] at h
    have hr : r = smallestResult c cs := by
      have := h
      simp at this
      exact this.symm
    subst hr
    exact ⟨smallestResult_mem c cs, smallestResult_le c cs⟩

end Comprangel

namespace Comprangel

lemma runChain_cons_some_beat (enc : Encoder) (l : Bool) (orig : ℕ) (st : Step)
    (rest : List Step) (acc : List (Option ConvResult)) (res : ConvResult)
    (hr : stepResult enc l st = some res) (hb : res.convertedSize < orig) :
    runChain enc l orig (st :: rest) acc = Except.ok res := by
  unfold runChain
  rw [hr]
  simp [hb]

lemma runChain_cons_skip (enc : Encoder) (l : Bool) (orig : ℕ) (st : Step)
    (rest : List Step) (acc : List (Option ConvResult))
    (h : beats orig (stepResult enc l st) = false) :
    runChain enc l orig (st :: rest) acc =
      runChain enc l orig rest (stepResult enc l st :: acc) := by
  cases hr : stepResult enc l st with
  | none =>
    conv_lhs => unfold runChain
    rw [hr]
  | some res =>
    have hb : ¬ res.convertedSize < orig := by
      rw [hr] at h
      simpa [beats] using h
    conv_lhs => unfold runChain
    rw [hr]
    simp [hb]

lemma runChain_found (enc : Encoder) (l : Bool) (orig : ℕ) :
    ∀ (steps : List Step) (acc : List (Option ConvResult)),
      (steps.map (stepResult enc l)).any (beats orig) = true →
      ∃ r, runChain enc l orig steps acc = Except.ok r ∧
        (steps.map (stepResult enc l)).find? (beats orig) = some (some r) ∧
        r.convertedSize < orig := by
  intro steps
  induction steps with
  | nil => intro acc h; simp at h
  | cons st rest ih =>
    intro acc h
    by_cases hb : beats orig (stepResult enc l st) = true
    · cases hr : stepResult enc l st with
      | none => rw [hr] at hb; simp [beats] at hb
      | some res =>
        rw [hr] at hb
        have hlt : res.convertedSize < orig := by simpa [beats] using hb
        refine ⟨res, runChain_cons_some_beat enc l orig st rest acc res hr hlt, ?_, hlt⟩
        rw [List.map_cons, List.find?_cons_of_pos]
        · rw [hr]
        · rw [hr]; simpa [beats] using hlt
    · have hb' : beats orig (stepResult enc l st) = false := by
        simpa using hb
      have h' : ((rest.map (stepResult enc l)).any (beats orig)) = true := by
        rw [List.map_cons, List.any_cons, hb'] at h
        simpa using h
      obtain ⟨r, h1, h2, h3⟩ := ih (stepResult enc l st :: acc) h'
      refine ⟨r, ?_, ?_, h3⟩
      · rw [runChain_cons_skip enc l orig st rest acc hb']
        exact h1
      · rw [List.map_cons, List.find?_cons_of_neg]
        · exact h2
        · simp [hb']

lemma runChain_noBeat (enc : Encoder) (l : Bool) (orig : ℕ) :
    ∀ (steps : List Step) (acc : List (Option ConvResult)),
      (steps.map (stepResult enc l)).any (beats orig) = false →
      runChain enc l orig steps acc =
        settleAttempts (acc.reverse ++ steps.map (stepResult enc l)) := by
  intro steps
  induction steps with
  | nil => intro acc h; simp [runChain]
  | cons st rest ih =>
    intro acc h
    rw [List.map_cons, List.any_cons] at h
    have hb : beats orig (stepResult enc l st) = false := by
      cases hx : beats orig (stepResult enc l st) with
      | false => rfl
      | true => rw [hx] at h; simp at h
    rw [hb] at h
    have hrest : (rest.map (stepResult enc l)).any (beats orig) = false := by
      simpa using h
    rw [runChain_cons_skip enc l orig st rest acc hb, ih _ hrest]
    congr 1
    rw [List.map_cons, List.reverse_cons, List.append_assoc]
    rfl

end Comprangel

namespace Comprangel

/-- C1: the encoder search executes the fallback chain `chainSteps` —
requested format at requested quality, same format at half quality unless
png, webp at `min(0.6, q)` unless webp, webp@0.3, jpeg@0.4, webp@0.4 at
halved dimensions — strictly in order over the (possibly AVIF-optimized)
dimensions, and returns the first attempt whose byte size is strictly
below the original; hence whenever any attempt produces fewer bytes than
the original, the returned result's byte size is below the original. -/
theorem C1_chain_returns_first_beat (enc : Encoder) (img : Img) (s : Settings) (orig : ℕ)
    (h : (((chainSteps s (hookOptimizedDims img s).1 (hookOptimizedDims img s).2).map
        (stepResult enc s.lossless)).any (beats orig)) = true) :
    ∃ r, hookProcessImage enc img s orig = Except.ok r ∧
      ((chainSteps s (hookOptimizedDims img s).1 (hookOptimizedDims img s).2).map
        (stepResult enc s.lossless)).find? (beats orig) = some (some r) ∧
      r.convertedSize < orig := by
  obtain ⟨r, h1, h2, h3⟩ := runChain_found enc s.lossless orig _ [] h
  exact ⟨r, h1, h2, h3⟩

theorem C1_chain_returns_first_beat_witness :
    ((((chainSteps exJpegSettings (hookOptimizedDims exImgVGA exJpegSettings).1
        (hookOptimizedDims exImgVGA exJpegSettings).2).map
        (stepResult encConst exJpegSettings.lossless)).any (beats 200)) = true) ∧
    (∃ r, hookProcessImage encConst exImgVGA exJpegSettings 200 = Except.ok r ∧
      ((chainSteps exJpegSettings (hookOptimizedDims exImgVGA exJpegSettings).1
        (hookOptimizedDims exImgVGA exJpegSettings).2).map
        (stepResult encConst exJpegSettings.lossless)).find? (beats 200) = some (some r) ∧
      r.convertedSize < 200) :=
  ⟨by
    simp only [exJpegSettings, chainSteps, stepResult, attemptConversion, finalQualityFor,
      beats, encConst, List.map_append, List.map_cons, List.map_nil, List.any_append,
      List.any_cons, List.any_nil]
    norm_num,
   C1_chain_returns_first_beat encConst exImgVGA exJpegSettings 200 (by
    simp only [exJpegSettings, chainSteps, stepResult, attemptConversion, finalQualityFor,
      beats, encConst, List.map_append, List.map_cons, List.map_nil, List.any_append,
      List.any_cons, List.any_nil]
    norm_num)⟩

/-- C2: when no attempt of the chain beats the original byte size, the
search returns a produced attempt of minimal byte size, and it rejects
with the encode-failure error exactly when every attempt in the chain
produced no blob at all. -/
theorem C2_no_beat_smallest_or_reject (enc : Encoder) (s : Settings) (orig : ℕ) (ow oh : ℤ)
    (h : (((chainSteps s ow oh).map (stepResult enc s.lossless)).any (beats orig)) = false) :
    (processImageSearch enc s orig ow oh = Except.error "Failed to create compressed image" ↔
      ∀ st ∈ chainSteps s ow oh, stepResult enc s.lossless st = none) ∧
    ∀ r, processImageSearch enc s orig ow oh = Except.ok r →
      some r ∈ (chainSteps s ow oh).map (stepResult enc s.lossless) ∧
      ∀ x : ConvResult, some x ∈ (chainSteps s ow oh).map (stepResult enc s.lossless) →
        r.convertedSize ≤ x.convertedSize := by
  have hrw : processImageSearch enc s orig ow oh =
      settleAttempts ((chainSteps s ow oh).map (stepResult enc s.lossless)) := by
    have hnb := runChain_noBeat enc s.lossless orig (chainSteps s ow oh) [] h
    simpa [processImageSearch] using hnb
  constructor
  · rw [hrw, settleAttempts_error_iff, List.filterMap_eq_nil_iff]
    constructor
    · intro hall st hst
      have := hall _ (List.mem_map_of_mem _ hst)
      simpa using this
    · intro hall o ho
      rcases List.mem_map.mp ho with ⟨st, hst, rfl⟩
      simpa using hall st hst
  · intro r hok
    rw [hrw] at hok
    obtain ⟨hmem, hle⟩ := settleAttempts_ok _ r hok
    constructor
    · rcases List.mem_filterMap.mp hmem with ⟨o, ho, hid⟩
      rw [show o = some r from hid] at ho
      exact ho
    · intro x hx
      exact hle x (List.mem_filterMap.mpr ⟨some x, hx, rfl⟩)

theorem C2_no_beat_smallest_or_reject_witness :
    ((((chainSteps exAvifSettings 640 480).map
        (stepResult encBig exAvifSettings.lossless)).any (beats 100)) = false) ∧
    ((processImageSearch encBig exAvifSettings 100 640 480 =
        Except.error "Failed to create compressed image" ↔
      ∀ st ∈ chainSteps exAvifSettings 640 480,
        stepResult encBig exAvifSettings.lossless st = none) ∧
    ∀ r, processImageSearch encBig exAvifSettings 100 640 480 = Except.ok r →
      some r ∈ (chainSteps exAvifSettings 640 480).map
        (stepResult encBig exAvifSettings.lossless) ∧
      ∀ x : ConvResult, some x ∈ (chainSteps exAvifSettings 640 480).map
          (stepResult encBig exAvifSettings.lossless) →
        r.convertedSize ≤ x.convertedSize) :=
  ⟨by
    simp only [exAvifSettings, chainSteps, stepResult, attemptConversion, finalQualityFor,
      beats, encBig, List.map_append, List.map_cons, List.map_nil, List.any_append,
      List.any_cons, List.any_nil, ne_eq,
      (by decide : (Format.avif = Format.png) = False),
      (by decide : (Format.avif = Format.webp) = False)]
    norm_num [stepResult, attemptConversion, finalQualityFor, beats, encBig],
   C2_no_beat_smallest_or_reject encBig exAvifSettings 100 640 480 (by
    simp only [exAvifSettings, chainSteps, stepResult, attemptConversion, finalQualityFor,
      beats, encBig, List.map_append, List.map_cons, List.map_nil, List.any_append,
      List.any_cons, List.any_nil, ne_eq,
      (by decide : (Format.avif = Format.png) = False),
      (by decide : (Format.avif = Format.webp) = False)]
    norm_num [stepResult, attemptConversion, finalQualityFor, beats, encBig])⟩

/-- C3: every attempt's quality is clamped per the target format of that
attempt — webp to [0.5, 0.85] when not lossless and forced to 1 when
lossless; avif to [0.15, 0.4] independently of the lossless flag; jpeg to
[0.6, 0.92]; png gets no quality parameter at all. -/
theorem C3_per_format_quality_clamp (enc : Encoder) (l : Bool) (fmt : Format) (q : ℚ)
    (w h : ℤ) (r : ConvResult) (hr : attemptConversion enc l fmt q w h = some r) :
    r.qualityUsed = finalQualityFor l fmt q ∧
    (fmt = Format.webp → l = false →
      r.qualityUsed = some (min (17/20) (max (1/2) q)) ∧
      ∃ x, r.qualityUsed = some x ∧ 1/2 ≤ x ∧ x ≤ 17/20) ∧
    (fmt = Format.webp → l = true → r.qualityUsed = some 1) ∧
    (fmt = Format.avif →
      r.qualityUsed = some (min (2/5) (max (3/20) q)) ∧
      ∃ x, r.qualityUsed = some x ∧ 3/20 ≤ x ∧ x ≤ 2/5) ∧
    (finalQualityFor true Format.avif q = finalQualityFor false Format.avif q) ∧
    (fmt = Format.jpeg →
      r.qualityUsed = some (min (23/25) (max (3/5) q)) ∧
      ∃ x, r.qualityUsed = some x ∧ 3/5 ≤ x ∧ x ≤ 23/25) ∧
    (fmt = Format.png → r.qualityUsed = none) := by
  have hq : r.qualityUsed = finalQualityFor l fmt q := by
    simp only [attemptConversion] at hr
    cases he : enc fmt (finalQualityFor l fmt q) w h with
    | none => rw [he] at hr; exact absurd hr (by simp)
    | some size =>
      rw [he] at hr
      have : (⟨size, w, h, fmt, finalQualityFor l fmt q⟩ : ConvResult) = r := by
        simpa using hr
      rw [← this]
  refine ⟨hq, ?_, ?_, ?_, rfl, ?_, ?_⟩
  · rintro rfl rfl
    rw [hq]
    refine ⟨by simp [finalQualityFor], min (17/20) (max (1/2) q), by simp [finalQualityFor], ?_, min_le_left _ _⟩
    exact le_min (by norm_num) (le_max_left _ _)
  · rintro rfl rfl
    rw [hq]
    simp [finalQualityFor]
  · rintro rfl
    rw [hq]
    refine ⟨rfl, min (2/5) (max (3/20) q), rfl, ?_, min_le_left _ _⟩
    exact le_min (by norm_num) (le_max_left _ _)
  · rintro rfl
    rw [hq]
    refine ⟨rfl, min (23/25) (max (3/5) q), rfl, ?_, min_le_left _ _⟩
    exact le_min (by norm_num) (le_max_left _ _)
  · rintro rfl
    rw [hq]
    rfl

theorem C3_per_format_quality_clamp_witness :
    (attemptConversion encConst false Format.png (4/5) 10 10 =
      some ⟨100, 10, 10, Format.png, none⟩) ∧
    ((⟨100, 10, 10, Format.png, none⟩ : ConvResult).qualityUsed =
        finalQualityFor false Format.png (4/5) ∧
      (Format.png = Format.webp → false = false →
        (⟨100, 10, 10, Format.png, none⟩ : ConvResult).qualityUsed =
          some (min (17/20) (max (1/2) (4/5))) ∧
        ∃ x, (⟨100, 10, 10, Format.png, none⟩ : ConvResult).qualityUsed = some x ∧
          1/2 ≤ x ∧ x ≤ 17/20) ∧
      (Format.png = Format.webp → false = true →
        (⟨100, 10, 10, Format.png, none⟩ : ConvResult).qualityUsed = some 1) ∧
      (Format.png = Format.avif →
        (⟨100, 10, 10, Format.png, none⟩ : ConvResult).qualityUsed =
          some (min (2/5) (max (3/20) (4/5))) ∧
        ∃ x, (⟨100, 10, 10, Format.png, none⟩ : ConvResult).qualityUsed = some x ∧
          3/20 ≤ x ∧ x ≤ 2/5) ∧
      (finalQualityFor true Format.avif (4/5) = finalQualityFor false Format.avif (4/5)) ∧
      (Format.png = Format.jpeg →
        (⟨100, 10, 10, Format.png, none⟩ : ConvResult).qualityUsed =
          some (min (23/25) (max (3/5) (4/5))) ∧
        ∃ x, (⟨100, 10, 10, Format.png, none⟩ : ConvResult).qualityUsed = some x ∧
          3/5 ≤ x ∧ x ≤ 23/25) ∧
      (Format.png = Format.png →
        (⟨100, 10, 10, Format.png, none⟩ : ConvResult).qualityUsed = none)) :=
  ⟨rfl, C3_per_format_quality_clamp encConst false Format.png (4/5) 10 10
      ⟨100, 10, 10, Format.png, none⟩ rfl⟩

end Comprangel

namespace Comprangel

/-- C4 counterexample: processing a 100×200 image with crop enabled on a
10×20 rectangle and a 50% resize, the hook's transform stage resizes the
full bitmap to 50×100 and draws the whole source, whereas applying crop
first (as the worker does) gives 5×10 from the crop rectangle — so the
claim that every processed image with crop.enabled has the crop applied
first is false on the hook path. -/
theorem C4_crop_cex :
    hookFinalDims exImg exCropSettings = (50, 100) ∧
    workerDims exImg exCropSettings = (5, 10) ∧
    hookFinalDims exImg exCropSettings ≠ workerDims exImg exCropSettings ∧
    hookSourceRect exImg ≠ workerSourceRect exImg exCropSettings.crop := by
  have h1 : hookFinalDims exImg exCropSettings = (50, 100) := by
    simp only [hookFinalDims, hookResizeDims, resizeStep, rotateSwap, exImg, exCropSettings]
    norm_num [jsRound_eq, Int.floor_eq_iff]
  have h2 : workerDims exImg exCropSettings = (5, 10) := by
    simp only [workerDims, workerPreRotateDims, workerBaseDims, resizeStep, rotateSwap,
      exImg, exCropSettings]
    norm_num [jsRound_eq, Int.floor_eq_iff]
  refine ⟨h1, h2, ?_, ?_⟩
  · rw [h1, h2]; decide
  · simp [hookSourceRect, workerSourceRect, exImg, exCropSettings]

/-- C4 amended: in the worker's processImage, crop (when enabled) is
applied first — the dimensions entering the resize step are the crop
rectangle's and the drawn source is the crop rectangle, so resize,
rotation and encode operate on the cropped region; the hook's
processImage, by contrast, ignores the crop settings entirely. -/
theorem C4_crop_first_in_worker (img : Img) (s : Settings) (h : s.crop.enabled = true) :
    workerBaseDims img s.crop = (s.crop.width, s.crop.height) ∧
    workerDims img s = rotateSwap s.rotate
      (resizeStep img.width img.height s.resize (s.crop.width : ℤ) (s.crop.height : ℤ)).1
      (resizeStep img.width img.height s.resize (s.crop.width : ℤ) (s.crop.height : ℤ)).2 ∧
    workerSourceRect img s.crop = (s.crop.x, s.crop.y, s.crop.width, s.crop.height) ∧
    (s.resize.enabled = false → s.rotate = 0 →
      workerDims img s = ((s.crop.width : ℤ), (s.crop.height : ℤ))) ∧
    (∀ (c : CropSettings) (enc : Encoder) (orig : ℕ),
      hookProcessImage enc img { s with crop := c } orig = hookProcessImage enc img s orig ∧
      hookFinalDims img { s with crop := c } = hookFinalDims img s) := by
  refine ⟨?_, ?_, ?_, ?_, ?_⟩
  · simp [workerBaseDims, h]
  · simp [workerDims, workerPreRotateDims, workerBaseDims, h]
  · simp [workerSourceRect, h]
  · intro hre hrot
    simp [workerDims, workerPreRotateDims, workerBaseDims, resizeStep, rotateSwap, h, hre, hrot]
  · intro c enc orig
    exact ⟨rfl, rfl⟩

theorem C4_crop_first_in_worker_witness :
    exCropSettings.crop.enabled = true ∧
    (workerBaseDims exImg exCropSettings.crop =
        (exCropSettings.crop.width, exCropSettings.crop.height) ∧
      workerDims exImg exCropSettings = rotateSwap exCropSettings.rotate
        (resizeStep exImg.width exImg.height exCropSettings.resize
          (exCropSettings.crop.width : ℤ) (exCropSettings.crop.height : ℤ)).1
        (resizeStep exImg.width exImg.height exCropSettings.resize
          (exCropSettings.crop.width : ℤ) (exCropSettings.crop.height : ℤ)).2 ∧
      workerSourceRect exImg exCropSettings.crop =
        (exCropSettings.crop.x, exCropSettings.crop.y,
         exCropSettings.crop.width, exCropSettings.crop.height) ∧
      (exCropSettings.resize.enabled = false → exCropSettings.rotate = 0 →
        workerDims exImg exCropSettings =
          ((exCropSettings.crop.width : ℤ), (exCropSettings.crop.height : ℤ))) ∧
      (∀ (c : CropSettings) (enc : Encoder) (orig : ℕ),
        hookProcessImage enc exImg { exCropSettings with crop := c } orig =
          hookProcessImage enc exImg exCropSettings orig ∧
        hookFinalDims exImg { exCropSettings with crop := c } =
          hookFinalDims exImg exCropSettings)) :=
  ⟨rfl, C4_crop_first_in_worker exImg exCropSettings rfl⟩

/-- C5: the settings used by a batch are the ones the settings ref holds
at batch start; any later value of the ref (a mutation mid-batch) leaves
every file's outcome and every progress value of that batch unchanged. -/
theorem C5_settings_snapshot (proc : ℕ → Settings → Except String ConvResult)
    (ref1 ref2 : ℕ → Settings) (files : List ℕ) (h : ref1 0 = ref2 0) :
    processBatch proc ref1 files = processBatch proc ref2 files := by
  unfold processBatch
  rw [h]

theorem C5_settings_snapshot_witness :
    refSteady 0 = refMutated 0 ∧
    refSteady 1 ≠ refMutated 1 ∧
    processBatch procPartial refSteady [0, 1, 2] =
      processBatch procPartial refMutated [0, 1, 2] :=
  ⟨rfl,
   by
    intro hEq
    have hf := congrArg Settings.outputFormat hEq
    simp [refSteady, refMutated] at hf,
   C5_settings_snapshot procPartial refSteady refMutated [0, 1, 2] rfl⟩

end Comprangel

namespace Comprangel

lemma batchLoop_outcomes (proc : ℕ → Settings → Except String ConvResult)
    (cs : Settings) (total : ℕ) :
    ∀ (fs : List ℕ) (k : ℕ),
      (batchLoop proc cs total fs k).1 =
        fs.map (fun f => (⟨f, proc f cs⟩ : FileOutcome)) := by
  intro fs
  induction fs with
  | nil => intro k; simp [batchLoop]
  | cons f rest ih => intro k; simp [batchLoop, ih]

lemma batchLoop_progress (proc : ℕ → Settings → Except String ConvResult)
    (cs : Settings) (total : ℕ) :
    ∀ (fs : List ℕ) (k : ℕ),
      (batchLoop proc cs total fs k).2 =
        (List.range fs.length).map (fun i => ((k + i + 1 : ℕ) : ℚ) / (total : ℚ)) := by
  intro fs
  induction fs with
  | nil => intro k; simp [batchLoop]
  | cons f rest ih =>
    intro k
    have hstep : (batchLoop proc cs total (f :: rest) k).2 =
        ((k + 1 : ℕ) : ℚ) / (total : ℚ) :: (batchLoop proc cs total rest (k + 1)).2 := rfl
    rw [hstep, ih (k + 1), List.length_cons, List.range_succ_eq_map, List.map_cons,
      List.map_map]
    refine congrArg₂ List.cons ?_ ?_
    · push_cast
      ring
    · apply List.map_congr_left
      intro i hi
      simp only [Function.comp_apply]
      push_cast
      ring

/-- C6: for a batch of N files the reported progress values are exactly
1/N, 2/N, ..., N/N in that order, whatever each file's outcome — every
file is recorded (errors included) and still advances progress — and a
nonempty batch's progress sequence ends at 1. -/
theorem C6_progress_exact (proc : ℕ → Settings → Except String ConvResult)
    (refVal : ℕ → Settings) (files : List ℕ) :
    (processBatch proc refVal files).2 =
      (List.range files.length).map (fun i => ((i + 1 : ℕ) : ℚ) / (files.length : ℚ)) ∧
    (processBatch proc refVal files).1 =
      files.map (fun f => (⟨f, proc f (refVal 0)⟩ : FileOutcome)) ∧
    (files ≠ [] → ∃ ps, (processBatch proc refVal files).2 = ps ++ [1]) := by
  by_cases hf : files.length = 0
  · have hnil : files = [] := List.length_eq_zero.mp hf
    subst hnil
    exact ⟨by simp [processBatch], by simp [processBatch],
      fun hne => absurd rfl hne⟩
  · have hproc : processBatch proc refVal files =
        batchLoop proc (refVal 0) files.length files 0 := by
      simp [processBatch, hf]
    refine ⟨?_, ?_, ?_⟩
    · rw [hproc, batchLoop_progress]
      simp only [Nat.zero_add]
    · rw [hproc, batchLoop_outcomes]
    · intro hne
      obtain ⟨n, hn⟩ : ∃ n, files.length = n + 1 := ⟨files.length - 1, by omega⟩
      refine ⟨(List.range n).map (fun i => ((i + 1 : ℕ) : ℚ) / (files.length : ℚ)), ?_⟩
      rw [hproc, batchLoop_progress]
      simp only [Nat.zero_add]
      rw [hn, List.range_succ, List.map_append, List.map_cons, List.map_nil]
      congr 2
      push_cast
      have hpos : ((n : ℚ) + 1) ≠ 0 := by positivity
      rw [div_self hpos]

theorem C6_progress_exact_witness :
    (processBatch procPartial refSteady [1, 2]).2 = [1/2, 1] ∧
    (([1, 2] : List ℕ) ≠ []) ∧
    (∃ ps, (processBatch procPartial refSteady [1, 2]).2 = ps ++ [1]) :=
  ⟨by
    simp only [processBatch, batchLoop]
    norm_num,
   by decide,
   (C6_progress_exact procPartial refSteady [1, 2]).2.2 (by decide)⟩

/-- C7 counterexample: at stored contrast 50 on channel value 200, the
hook's contrast filter (factor computed from the raw stored value) yields
a channel near 234.7, while the specification's normalized rule yields 0
after clamping — so the claim that every contrast computation uses the
normalized formula is false on the hook path. -/
theorem C7_contrast_cex :
    hookApplyFilters ⟨false, 0, 50⟩ ⟨200, 200, 200⟩ ≠
      ⟨specContrastChannel 50 200, specContrastChannel 50 200, specContrastChannel 50 200⟩ := by
  intro hEq
  have hr := congrArg Pixel.r hEq
  simp only [hookApplyFilters, grayStep, brightnessStep, contrastApply, hookContrastFactor,
    specContrastChannel, clamp255] at hr
  norm_num at hr

/-- C7 amended: for every nonzero stored contrast the worker's contrast
filter computes exactly the specification's normalized rule — factor from
`c = (contrast+100)/100`, output `factor*(v-128)+128` clamped to
[0, 255] — on each channel; at stored contrast 0 the step is skipped
(channels pass through unchanged up to the final clamp); the hook's
contrast filter instead computes its factor from the raw stored value. -/
theorem C7_contrast_normalized_in_worker (c : ℚ) (p : Pixel) (hc : c ≠ 0) :
    workerApplyFilters ⟨false, 0, c⟩ p =
      ⟨specContrastChannel c p.r, specContrastChannel c p.g, specContrastChannel c p.b⟩ := by
  simp [workerApplyFilters, workerContrastFactor, contrastApply, grayStep, brightnessStep,
    specContrastChannel, clamp255, hc]

theorem C7_contrast_normalized_in_worker_witness :
    ((50 : ℚ) ≠ 0) ∧
    workerApplyFilters ⟨false, 0, 50⟩ ⟨200, 200, 200⟩ =
      ⟨specContrastChannel 50 200, specContrastChannel 50 200, specContrastChannel 50 200⟩ :=
  ⟨by norm_num,
   C7_contrast_normalized_in_worker 50 ⟨200, 200, 200⟩ (by norm_num)⟩

/-- C8: at contrast 0 the contrast step is the identity — the hook's
factor formula evaluates to 1 there, both filter passes leave a pixel
with in-range channels unchanged when grayscale is off, brightness is 0
and contrast is 0 — so such a transform is the identity on pixel values. -/
theorem C8_contrast_zero_identity (p : Pixel)
    (h0r : 0 ≤ p.r) (h1r : p.r ≤ 255) (h0g : 0 ≤ p.g) (h1g : p.g ≤ 255)
    (h0b : 0 ≤ p.b) (h1b : p.b ≤ 255) :
    hookContrastFactor 0 = 1 ∧
    hookApplyFilters ⟨false, 0, 0⟩ p = p ∧
    workerApplyFilters ⟨false, 0, 0⟩ p = p := by
  refine ⟨by norm_num [hookContrastFactor], ?_, ?_⟩
  · simp [hookApplyFilters]
  · cases p with
    | mk r g b =>
      simp only [workerApplyFilters, grayStep, brightnessStep, contrastApply, clamp255]
      norm_num
      refine ⟨?_, ?_, ?_⟩
      · rw [min_eq_right h1r, max_eq_right h0r]
      · rw [min_eq_right h1g, max_eq_right h0g]
      · rw [min_eq_right h1b, max_eq_right h0b]

theorem C8_contrast_zero_identity_witness :
    ((0 : ℚ) ≤ 10 ∧ (10 : ℚ) ≤ 255 ∧ (0 : ℚ) ≤ 20 ∧ (20 : ℚ) ≤ 255 ∧
      (0 : ℚ) ≤ 30 ∧ (30 : ℚ) ≤ 255) ∧
    (hookContrastFactor 0 = 1 ∧
      hookApplyFilters ⟨false, 0, 0⟩ ⟨10, 20, 30⟩ = ⟨10, 20, 30⟩ ∧
      workerApplyFilters ⟨false, 0, 0⟩ ⟨10, 20, 30⟩ = ⟨10, 20, 30⟩) :=
  ⟨by norm_num,
   C8_contrast_zero_identity ⟨10, 20, 30⟩ (by norm_num) (by norm_num) (by norm_num)
     (by norm_num) (by norm_num) (by norm_num)⟩

end Comprangel

namespace Comprangel

/-- C9: with dimensions mode and the aspect locked, setting the width to a
nonzero `w` makes both the processing pipeline and the editor's width
handler derive the height as `round(w / (W/H))` from the original source
aspect ratio, independently of any previously set or derived height. -/
theorem C9_aspect_lock_height (W H w hPrev hPrev2 : ℕ) (pct : ℚ)
    (hW : 0 < W) (hH : 0 < H) (hw : w ≠ 0) :
    hookResizeDims ⟨W, H⟩ ⟨true, false, pct, w, hPrev, true⟩ =
      ((w : ℤ), jsRound ((w : ℚ) / ((W : ℚ) / (H : ℚ)))) ∧
    hookResizeDims ⟨W, H⟩ ⟨true, false, pct, w, hPrev2, true⟩ =
      hookResizeDims ⟨W, H⟩ ⟨true, false, pct, w, hPrev, true⟩ ∧
    handleWidthChange W H true (hPrev : ℤ) (w : ℤ) =
      ((w : ℤ), jsRound ((w : ℚ) / ((W : ℚ) / (H : ℚ)))) ∧
    handleWidthChange W H true (hPrev2 : ℤ) (w : ℤ) =
      handleWidthChange W H true (hPrev : ℤ) (w : ℤ) := by
  refine ⟨?_, ?_, ?_, ?_⟩
  · simp [hookResizeDims, resizeStep, hw]
  · simp [hookResizeDims, resizeStep, hw]
  · simp [handleWidthChange]
  · simp [handleWidthChange]

theorem C9_aspect_lock_height_witness :
    (0 < 800 ∧ 0 < 600 ∧ (500 : ℕ) ≠ 0) ∧
    (hookResizeDims ⟨800, 600⟩ ⟨true, false, 100, 500, 7, true⟩ =
        ((500 : ℤ), jsRound ((500 : ℚ) / ((800 : ℚ) / (600 : ℚ)))) ∧
      hookResizeDims ⟨800, 600⟩ ⟨true, false, 100, 500, 99, true⟩ =
        hookResizeDims ⟨800, 600⟩ ⟨true, false, 100, 500, 7, true⟩ ∧
      handleWidthChange 800 600 true ((7 : ℕ) : ℤ) ((500 : ℕ) : ℤ) =
        ((500 : ℤ), jsRound ((500 : ℚ) / ((800 : ℚ) / (600 : ℚ)))) ∧
      handleWidthChange 800 600 true ((99 : ℕ) : ℤ) ((500 : ℕ) : ℤ) =
        handleWidthChange 800 600 true ((7 : ℕ) : ℤ) ((500 : ℕ) : ℤ)) ∧
    jsRound ((500 : ℚ) / ((800 : ℚ) / (600 : ℚ))) = 375 :=
  ⟨by norm_num,
   C9_aspect_lock_height 800 600 500 7 99 100 (by norm_num) (by norm_num) (by norm_num),
   by
    rw [jsRound_eq]
    norm_num [Int.floor_eq_iff]⟩

/-- C10: rotating by 90 or 270 swaps the output canvas dimensions of both
the hook pipeline and the worker pipeline relative to their pre-rotation
dimensions, while rotating by 0 or 180 keeps them. -/
theorem C10_rotation_swaps_dims (img : Img) (s : Settings) :
    ((s.rotate = 90 ∨ s.rotate = 270) →
      hookFinalDims img s =
        ((hookResizeDims img s.resize).2, (hookResizeDims img s.resize).1) ∧
      workerDims img s =
        ((workerPreRotateDims img s).2, (workerPreRotateDims img s).1)) ∧
    ((s.rotate = 0 ∨ s.rotate = 180) →
      hookFinalDims img s = hookResizeDims img s.resize ∧
      workerDims img s = workerPreRotateDims img s) := by
  constructor
  · intro hrot
    have h90 : (s.rotate = 90 ∨ s.rotate = 270) = True := by simp [hrot]
    constructor
    · simp [hookFinalDims, rotateSwap, h90]
    · simp [workerDims, rotateSwap, h90]
  · intro hrot
    have hneq : ¬ (s.rotate = 90 ∨ s.rotate = 270) := by
      rcases hrot with h | h <;> simp [h]
    constructor
    · simp [hookFinalDims, rotateSwap, hneq]
    · simp [workerDims, rotateSwap, hneq]

theorem C10_rotation_swaps_dims_witness :
    (exRot90Settings.rotate = 90 ∨ exRot90Settings.rotate = 270) ∧
    (hookFinalDims exImg exRot90Settings =
      ((hookResizeDims exImg exRot90Settings.resize).2,
       (hookResizeDims exImg exRot90Settings.resize).1)) ∧
    hookFinalDims exImg exRot90Settings = (200, 100) :=
  ⟨Or.inl rfl,
   ((C10_rotation_swaps_dims exImg exRot90Settings).1 (Or.inl rfl)).1,
   by simp [hookFinalDims, hookResizeDims, resizeStep, rotateSwap, exImg, exRot90Settings]⟩

end Comprangel
